import Mathlib

/-!
Verification development for httpsign-utils: key-pair parsing, construction of the
authenticator, and the response handling of the command-line client.

A shallow embedding of `authenticator/authenticator.go` and of
`httpsign-cli/cmd/main.go`.

Conventions of the embedding:

* a Go `string` is a Lean `String`; the only byte the code inspects is the
  separator `:` (0x3A), which never occurs inside a multi-byte UTF-8 sequence, and
  `len(s) == 0` holds exactly when the string has no character;
* a Go `error` is an `Option String`: `none` is `nil`, `some msg` is an error whose
  `Error()` text is `msg`;
* a Go `map` is an association list with unique keys, read through `Secrets.get`
  and written through `Secrets.set`;
* the HTTP transport, the request constructor, `strings.ToUpper` and the signer are
  collaborators of `run`, passed to it as a record of functions.
-/

namespace HttpSign

/-! Go runtime pieces used by the code. -/

/-- Go error value: `none` is `nil`, `some msg` carries the message of `errors.New msg`. -/
abbrev GoError := Option String

/-- Segments of a character list between the occurrences of `sep`: the result of
`strings.Split` for a one-byte separator, on the characters of the string. -/
def splitChars (sep : Char) : List Char → List (List Char)
  | [] => [[]]
  | c :: cs =>
    if c = sep then [] :: splitChars sep cs
    else
      match splitChars sep cs with
      | [] => [[c]]
      | seg :: segs => (c :: seg) :: segs

/-- Go `strings.Split(s, sep)` for a separator of one byte. -/
def stringsSplit (s : String) (sep : Char) : List String :=
  (splitChars sep s.data).map String.mk

/-! The library `github.com/gin-contrib/httpsign`, as far as the constructor uses it. -/

/-- Signing algorithms of `httpsign/crypto`. -/
inductive Crypto where
  | HmacSha256
  | HmacSha384
  | HmacSha512
  deriving DecidableEq, Repr

/-- KeyID of `httpsign`: the identifier a secret is registered under. -/
abbrev KeyID := String

/-- Secret of `httpsign`: the key and the algorithm that signs with it. -/
structure Secret where
  Key : String
  Algorithm : Crypto
  deriving DecidableEq, Repr

/-- Secrets of `httpsign`: the Go map from key id to secret. -/
abbrev Secrets := List (KeyID × Secret)

/-- Map read `secrets[k]`: `none` when the key is absent. -/
def Secrets.get (secrets : Secrets) (k : KeyID) : Option Secret :=
  (secrets.find? (fun e => decide (e.1 = k))).map Prod.snd

/-- Map write `secrets[k] = v`: an earlier entry of the same key is replaced. -/
def Secrets.set (secrets : Secrets) (k : KeyID) (v : Secret) : Secrets :=
  (k, v) :: secrets.filter (fun e => decide (e.1 ≠ k))

/-- Validators the constructor can be configured with, by identity. -/
inductive Validator where
  | Nonce
  | Digest
  | Date
  deriving DecidableEq, Repr

/-- Authenticator of `httpsign`: secret table, validator sequence, required headers. -/
structure Authenticator where
  secrets : Secrets
  validators : List Validator
  headers : List String
  deriving DecidableEq, Repr

/-- Option of `httpsign`: a configuration step applied to the authenticator. -/
abbrev AuthOption := Authenticator → Authenticator

/-- WithValidator of `httpsign`: sets the validator sequence. -/
def WithValidator (validators : List Validator) : AuthOption :=
  fun a => { a with validators := validators }

/-- WithRequiredHeaders of `httpsign`: sets the required-header list. -/
def WithRequiredHeaders (headers : List String) : AuthOption :=
  fun a => { a with headers := headers }

/-- Default required headers of `httpsign`. -/
def defaultRequiredHeaders : List String := ["(request-target)", "date", "digest"]

/-- Constructor `httpsign.NewAuthenticator` of the third-party library: applies the
options in order, then fills in the defaults for a validator sequence or header
list left empty. -/
def httpsignNewAuthenticator (secretKeys : Secrets) (options : List AuthOption) :
    Authenticator :=
  let a : Authenticator := { secrets := secretKeys, validators := [], headers := [] }
  let a := options.foldl (fun acc fn => fn acc) a
  let a := if a.validators = [] then
      { a with validators := [Validator.Date, Validator.Digest] } else a
  let a := if a.headers.length = 0 then { a with headers := defaultRequiredHeaders } else a
  a

/-- Modelled from the spec: NewNonceValidator of the authenticator package, whose
file is not among the sources; the spec names it the Nonce validator, and the
constructor only places it in the validator sequence. -/
def NewNonceValidator : Validator := Validator.Nonce

/-- NewDigestValidator of `httpsign/validator`, by identity. -/
def NewDigestValidator : Validator := Validator.Digest

/-! The file `authenticator/authenticator.go`. -/

/-- KeyPair includes key and secretKey with format accessKeyID:secretAccessKey. -/
abbrev KeyPair := String

/-- ParseKeyPair of `authenticator.go`: the triple `(accessKeyID, secretAccessKey, err)`. -/
def ParseKeyPair (keyPair : KeyPair) : String × String × GoError :=
  let kp : String := keyPair
  if kp.length = 0 then
    ("", "", some "missing access key keyPair")
  else
    let keys := stringsSplit kp ':'
    if keys.length ≠ 2 then
      ("", "", some "invalid key pair format")
    else if (keys.getD 0 "").length = 0 then
      ("", "", some "missing access key id")
    else if (keys.getD 1 "").length = 0 then
      ("", "", some "missing secret access key")
    else
      (keys.getD 0 "", keys.getD 1 "", none)

/-- The `for _, keyPair := range keyPairs` loop of `NewAuthenticator`: the secrets
after the remaining key pairs are registered, or the first parse error. -/
def NewAuthenticator.rangeKeyPairs : List KeyPair → Secrets → Except String Secrets
  | [], secrets => .ok secrets
  | keyPair :: rest, secrets =>
    match ParseKeyPair keyPair with
    | (_, _, some err) => .error err
    | (key, secret, none) =>
      let signKeyID : KeyID := key
      NewAuthenticator.rangeKeyPairs rest
        (secrets.set signKeyID { Key := secret, Algorithm := Crypto.HmacSha512 })

/-- NewAuthenticator of `authenticator.go`: the pair `(authenticator, err)`, with
`none` for a nil authenticator. -/
def NewAuthenticator (keyPairs : List KeyPair) : Option Authenticator × GoError :=
  let secrets : Secrets := []
  if keyPairs.length = 0 then
    (none, some "keyPairs are required")
  else
    match NewAuthenticator.rangeKeyPairs keyPairs secrets with
    | .error err => (none, some err)
    | .ok secrets =>
      let auth := httpsignNewAuthenticator secrets
        [ WithValidator [NewNonceValidator, NewDigestValidator],
          WithRequiredHeaders ["(request-target)", "nonce", "digest"] ]
      (some auth, none)

/-! The file `httpsign-cli/cmd/main.go`. -/

/-- The private parseKeyPair of `main.go`. -/
def parseKeyPair (keyPair : String) : String × String × GoError :=
  if keyPair.length = 0 then
    ("", "", some "missing access key keyPair")
  else
    let keys := stringsSplit keyPair ':'
    if keys.length ≠ 2 then
      ("", "", some "invalid key pair format")
    else if (keys.getD 0 "").length = 0 then
      ("", "", some "missing access key id")
    else if (keys.getD 1 "").length = 0 then
      ("", "", some "missing secret access key")
    else
      (keys.getD 0 "", keys.getD 1 "", none)

/-- What `run` reads from the `cli.Context`. -/
structure Context where
  firstArg : String
  request : String
  user : String
  data : String

/-- An `http.Request` as far as `run` builds it. -/
structure Request where
  method : String
  url : String
  body : Option String
  header : List (String × String)
  deriving DecidableEq, Repr

/-- An `http.Response` as far as `run` reads it: status code, status line, the
result of `ioutil.ReadAll(rsp.Body)` and the result of `rsp.Body.Close()`. -/
structure Response where
  StatusCode : Int
  Status : String
  readAll : Except String String
  close : GoError

/-- Collaborators of `run`: `strings.ToUpper`, `http.NewRequest`, `sign.Sign` and
`client.Do`. -/
structure Collaborators where
  toUpper : String → String
  newRequest : String → String → Option String → Except String Request
  sign : Request → String → String → Except String Request
  clientDo : Request → Except String Response

/-- Result of `run`: the text written to standard output and the returned error. -/
structure Outcome where
  stdout : String
  err : GoError
  deriving DecidableEq, Repr

/-- The part of `run` after a response has arrived (from the deferred close to the
end of the function). -/
def run.onResponse (rsp : Response) : Outcome :=
  if rsp.StatusCode > 400 then
    { stdout := "", err := some ("unexpected status: " ++ rsp.Status) }
  else
    match rsp.readAll with
    | .error err => { stdout := "", err := some err }
    | .ok output => { stdout := output, err := rsp.close }

/-- The function `run` of `main.go`. -/
def run (w : Collaborators) (c : Context) : Outcome :=
  let url := c.firstArg
  let method := w.toUpper c.request
  let keyPair := c.user
  let data := c.data
  if url.length = 0 then
    { stdout := "", err := some "missing URL" }
  else
    match parseKeyPair keyPair with
    | (_, _, some err) => { stdout := "", err := some err }
    | (accessKeyID, secretKeyID, none) =>
      let body : Option String := if data.length ≠ 0 then some data else none
      match w.newRequest method url body with
      | .error err => { stdout := "", err := some err }
      | .ok req =>
        let checked : Except String Request :=
          if method = "POST" ∨ method = "PUT" ∨ method = "DELETE" then
            .ok { req with header := req.header ++ [("Content-Type", "application/json")] }
          else if method = "GET" then .ok req
          else .error ("invalid method " ++ method)
        match checked with
        | .error err => { stdout := "", err := some err }
        | .ok req =>
          match w.sign req accessKeyID secretKeyID with
          | .error err => { stdout := "", err := some err }
          | .ok req =>
            match w.clientDo req with
            | .error err => { stdout := "", err := some err }
            | .ok rsp => run.onResponse rsp

/-- Collaborators that answer every request with the response `rsp`: the method is
taken as already upper-case, the request is built and signed without error. -/
def respondingWith (rsp : Response) : Collaborators where
  toUpper := fun m => m
  newRequest := fun method url body =>
    .ok { method := method, url := url, body := body, header := [] }
  sign := fun req _ _ => .ok req
  clientDo := fun _ => .ok rsp

/-! Facts about the splitter. -/

theorem splitChars_ne_nil (sep : Char) (l : List Char) : splitChars sep l ≠ [] := by
  cases l with
  | nil => simp [splitChars]
  | cons c cs =>
    simp only [splitChars]
    split
    · simp
    · split <;> simp

theorem splitChars_length (sep : Char) (l : List Char) :
    (splitChars sep l).length = l.count sep + 1 := by
  induction l with
  | nil => simp [splitChars]
  | cons c cs ih =>
    simp only [splitChars]
    by_cases h : c = sep
    · subst h
      simp [ih]
    · have hne := splitChars_ne_nil sep cs
      rw [if_neg h, List.count_cons_of_ne (fun e => h e.symm)]
      cases hs : splitChars sep cs with
      | nil => exact absurd hs hne
      | cons seg segs => rw [hs] at ih; simpa using ih

theorem splitChars_of_not_mem (sep : Char) (l : List Char) (h : sep ∉ l) :
    splitChars sep l = [l] := by
  induction l with
  | nil => simp [splitChars]
  | cons c cs ih =>
    have hc : c ≠ sep := fun e => h (by simp [e])
    have hcs : sep ∉ cs := fun e => h (List.mem_cons_of_mem _ e)
    simp [splitChars, hc, ih hcs]

theorem splitChars_append (sep : Char) (a b : List Char) (h : sep ∉ a) :
    splitChars sep (a ++ sep :: b) = a :: splitChars sep b := by
  induction a with
  | nil => simp [splitChars]
  | cons c cs ih =>
    have hc : c ≠ sep := fun e => h (by simp [e])
    have hcs : sep ∉ cs := fun e => h (List.mem_cons_of_mem _ e)
    simp [splitChars, hc, ih hcs]

theorem stringsSplit_pair (a b : String) (ha : ':' ∉ a.data) (hb : ':' ∉ b.data) :
    stringsSplit (a ++ ":" ++ b) ':' = [a, b] := by
  have hd : (a ++ ":" ++ b).data = a.data ++ ':' :: b.data := by
    simp [String.data_append]
  simp [stringsSplit, hd, splitChars_append _ _ _ ha, splitChars_of_not_mem _ _ hb]

theorem stringsSplit_length (s : String) :
    (stringsSplit s ':').length = s.data.count ':' + 1 := by
  simp [stringsSplit, splitChars_length]

theorem length_eq_zero_iff (s : String) : s.length = 0 ↔ s = "" := by
  constructor
  · intro h
    apply String.ext
    exact List.length_eq_zero.mp h
  · intro h
    subst h
    decide

theorem not_mem_of_count_pair (a b : String)
    (h : (a ++ ":" ++ b).data.count ':' = 1) : ':' ∉ a.data ∧ ':' ∉ b.data := by
  have hd : (a ++ ":" ++ b).data = a.data ++ ':' :: b.data := by
    simp [String.data_append]
  rw [hd, List.count_append, List.count_cons_self] at h
  constructor
  · exact List.count_eq_zero.mp (by omega)
  · exact List.count_eq_zero.mp (by omega)

theorem exists_pair_of_count_one (s : String) (h : s.data.count ':' = 1) :
    ∃ a b : String, s = a ++ ":" ++ b := by
  have hm : ':' ∈ s.data := List.count_pos_iff.mp (by omega)
  obtain ⟨l, r, hlr⟩ := List.append_of_mem hm
  refine ⟨String.mk l, String.mk r, ?_⟩
  apply String.ext
  simp [String.data_append, hlr]

theorem ParseKeyPair_pair (a b : String) (ha : ':' ∉ a.data) (hb : ':' ∉ b.data) :
    ParseKeyPair (a ++ ":" ++ b) =
      if a.length = 0 then ("", "", some "missing access key id")
      else if b.length = 0 then ("", "", some "missing secret access key")
      else (a, b, none) := by
  have hc : (":" : String).length = 1 := by decide
  have hlen : (a ++ ":" ++ b).length ≠ 0 := by
    simp only [String.length_append, hc]
    omega
  unfold ParseKeyPair
  simp only [hlen, if_false, stringsSplit_pair a b ha hb]
  simp

theorem ParseKeyPair_err_cases (s : String) :
    (ParseKeyPair s).2.2 = none ∨
    (ParseKeyPair s).2.2 = some "missing access key keyPair" ∨
    (ParseKeyPair s).2.2 = some "invalid key pair format" ∨
    (ParseKeyPair s).2.2 = some "missing access key id" ∨
    (ParseKeyPair s).2.2 = some "missing secret access key" := by
  unfold ParseKeyPair
  simp only
  split_ifs <;> simp

theorem ParseKeyPair_err_ne_required (s : String) :
    (ParseKeyPair s).2.2 ≠ some "keyPairs are required" := by
  intro h
  rcases ParseKeyPair_err_cases s with h1 | h1 | h1 | h1 | h1 <;>
    rw [h1] at h <;> revert h <;> decide

/-! Facts about the secret table. -/

theorem Secrets.get_set (secrets : Secrets) (k k2 : KeyID) (v : Secret) :
    (secrets.set k v).get k2 = if k2 = k then some v else secrets.get k2 := by
  unfold Secrets.set Secrets.get
  by_cases h : k2 = k
  · subst h
    simp
  · have hk : ¬ k = k2 := fun e => h e.symm
    simp only [List.find?_cons, hk, decide_False, if_neg h]
    congr 1
    induction secrets with
    | nil => rfl
    | cons e es ih =>
      by_cases he : e.1 = k
      · have he2 : ¬ e.1 = k2 := fun e2 => h (e2.symm.trans he)
        have hd : decide (e.1 ≠ k) = false := by simp [he]
        rw [List.filter_cons, hd, List.find?_cons_of_neg _ (by simpa using he2)]
        simpa using ih
      · have hd : decide (e.1 ≠ k) = true := by simp [he]
        rw [List.filter_cons, hd]
        by_cases he2 : e.1 = k2
        · simp [List.find?_cons, he2]
        · rw [if_pos rfl, List.find?_cons_of_neg _ (by simpa using he2),
            List.find?_cons_of_neg _ (by simpa using he2)]
          exact ih

/-! Facts about the loop of `NewAuthenticator`. -/

theorem rangeKeyPairs_cons (keyPair : KeyPair) (rest : List KeyPair) (secrets : Secrets) :
    NewAuthenticator.rangeKeyPairs (keyPair :: rest) secrets =
      match (ParseKeyPair keyPair).2.2 with
      | some err => .error err
      | none => NewAuthenticator.rangeKeyPairs rest
          (secrets.set (ParseKeyPair keyPair).1
            { Key := (ParseKeyPair keyPair).2.1, Algorithm := Crypto.HmacSha512 }) := by
  simp only [NewAuthenticator.rangeKeyPairs]
  rcases ParseKeyPair keyPair with ⟨k, s, _ | e⟩ <;> rfl

theorem rangeKeyPairs_ok_of_all (keyPairs : List KeyPair) (secrets : Secrets)
    (h : ∀ kp ∈ keyPairs, (ParseKeyPair kp).2.2 = none) :
    ∃ out, NewAuthenticator.rangeKeyPairs keyPairs secrets = .ok out := by
  induction keyPairs generalizing secrets with
  | nil => exact ⟨secrets, rfl⟩
  | cons kp rest ih =>
    rw [rangeKeyPairs_cons, h kp (List.mem_cons_self _ _)]
    exact ih _ (fun p hp => h p (List.mem_cons_of_mem _ hp))

theorem rangeKeyPairs_first_error (pre post : List KeyPair) (kp : KeyPair)
    (secrets : Secrets) (err : String)
    (hpre : ∀ p ∈ pre, (ParseKeyPair p).2.2 = none)
    (hkp : (ParseKeyPair kp).2.2 = some err) :
    NewAuthenticator.rangeKeyPairs (pre ++ kp :: post) secrets = .error err := by
  induction pre generalizing secrets with
  | nil => rw [List.nil_append, rangeKeyPairs_cons, hkp]
  | cons p ps ih =>
    rw [List.cons_append, rangeKeyPairs_cons, hpre p (List.mem_cons_self _ _)]
    exact ih _ (fun q hq => hpre q (List.mem_cons_of_mem _ hq))

theorem rangeKeyPairs_all_of_ok (keyPairs : List KeyPair) (secrets out : Secrets)
    (h : NewAuthenticator.rangeKeyPairs keyPairs secrets = .ok out) :
    ∀ kp ∈ keyPairs, (ParseKeyPair kp).2.2 = none := by
  induction keyPairs generalizing secrets with
  | nil => intro kp hkp; cases hkp
  | cons p ps ih =>
    rw [rangeKeyPairs_cons] at h
    cases hp : (ParseKeyPair p).2.2 with
    | some e => rw [hp] at h; cases h
    | none =>
      rw [hp] at h
      intro kp hkp
      rcases List.mem_cons.mp hkp with rfl | hmem
      · exact hp
      · exact ih _ h kp hmem

theorem rangeKeyPairs_error_mem (keyPairs : List KeyPair) (secrets : Secrets)
    (err : String) (h : NewAuthenticator.rangeKeyPairs keyPairs secrets = .error err) :
    ∃ kp ∈ keyPairs, (ParseKeyPair kp).2.2 = some err := by
  induction keyPairs generalizing secrets with
  | nil => cases h
  | cons p ps ih =>
    rw [rangeKeyPairs_cons] at h
    cases hp : (ParseKeyPair p).2.2 with
    | some e =>
      rw [hp] at h
      cases h
      exact ⟨p, List.mem_cons_self _ _, hp⟩
    | none =>
      rw [hp] at h
      obtain ⟨kp, hmem, hkp⟩ := ih _ h
      exact ⟨kp, List.mem_cons_of_mem _ hmem, hkp⟩

theorem NewAuthenticator_of_ok (keyPairs : List KeyPair) (out : Secrets)
    (hne : keyPairs ≠ [])
    (h : NewAuthenticator.rangeKeyPairs keyPairs [] = .ok out) :
    NewAuthenticator keyPairs =
      (some { secrets := out, validators := [Validator.Nonce, Validator.Digest],
              headers := ["(request-target)", "nonce", "digest"] }, none) := by
  have hl : keyPairs.length ≠ 0 := fun e => hne (List.length_eq_zero.mp e)
  unfold NewAuthenticator
  simp only [hl, if_false, h]
  rfl

theorem NewAuthenticator_of_error (keyPairs : List KeyPair) (err : String)
    (hne : keyPairs ≠ [])
    (h : NewAuthenticator.rangeKeyPairs keyPairs [] = .error err) :
    NewAuthenticator keyPairs = (none, some err) := by
  have hl : keyPairs.length ≠ 0 := fun e => hne (List.length_eq_zero.mp e)
  unfold NewAuthenticator
  simp only [hl, if_false, h]

theorem NewAuthenticator_nil : NewAuthenticator [] = (none, some "keyPairs are required") := by
  rfl

theorem NewAuthenticator_ok_inv (keyPairs : List KeyPair) (a : Authenticator)
    (h : NewAuthenticator keyPairs = (some a, none)) :
    keyPairs ≠ [] ∧ NewAuthenticator.rangeKeyPairs keyPairs [] = .ok a.secrets ∧
    a.validators = [Validator.Nonce, Validator.Digest] ∧
    a.headers = ["(request-target)", "nonce", "digest"] := by
  have hne : keyPairs ≠ [] := by
    intro e
    rw [e, NewAuthenticator_nil] at h
    cases h
  cases hr : NewAuthenticator.rangeKeyPairs keyPairs [] with
  | error err =>
    rw [NewAuthenticator_of_error keyPairs err hne hr] at h
    cases h
  | ok out =>
    rw [NewAuthenticator_of_ok keyPairs out hne hr] at h
    cases h
    exact ⟨hne, rfl, rfl, rfl⟩

theorem rangeKeyPairs_get (keyPairs : List KeyPair) (secrets out : Secrets)
    (h : NewAuthenticator.rangeKeyPairs keyPairs secrets = .ok out) (k : KeyID) :
    (out.get k = secrets.get k ∧ ∀ kp ∈ keyPairs, (ParseKeyPair kp).1 ≠ k) ∨
    (∃ pre kp post, keyPairs = pre ++ kp :: post ∧ (ParseKeyPair kp).1 = k ∧
      (∀ p ∈ post, (ParseKeyPair p).1 ≠ k) ∧
      out.get k = some { Key := (ParseKeyPair kp).2.1, Algorithm := Crypto.HmacSha512 }) := by
  induction keyPairs generalizing secrets with
  | nil =>
    left
    cases h
    exact ⟨rfl, fun kp hkp => by cases hkp⟩
  | cons p ps ih =>
    rw [rangeKeyPairs_cons] at h
    cases hp : (ParseKeyPair p).2.2 with
    | some e => rw [hp] at h; cases h
    | none =>
      rw [hp] at h
      rcases ih _ h with ⟨hget, hno⟩ | ⟨pre, kp, post, hsplit, hk, hpost, hget⟩
      · rw [Secrets.get_set] at hget
        by_cases hkp : k = (ParseKeyPair p).1
        · right
          rw [if_pos hkp] at hget
          exact ⟨[], p, ps, rfl, hkp.symm, hno, hget⟩
        · left
          rw [if_neg hkp] at hget
          refine ⟨hget, ?_⟩
          intro q hq
          rcases List.mem_cons.mp hq with rfl | hmem
          · exact fun e => hkp e.symm
          · exact hno q hmem
      · right
        exact ⟨p :: pre, kp, post, by rw [hsplit, List.cons_append], hk, hpost, hget⟩

/-! Claims about `ParseKeyPair`. -/

/-- C1: for a non-empty key id and a non-empty secret, neither containing a colon,
ParseKeyPair of `keyID:secret` succeeds (nil error) and returns exactly the key id
and the secret. -/
theorem ParseKeyPair_roundtrip (keyID secret : String)
    (hk : keyID ≠ "") (hs : secret ≠ "")
    (hkc : ':' ∉ keyID.data) (hsc : ':' ∉ secret.data) :
    ParseKeyPair (keyID ++ ":" ++ secret) = (keyID, secret, none) := by
  have hk0 : keyID.length ≠ 0 := fun e => hk ((length_eq_zero_iff _).mp e)
  have hs0 : secret.length ≠ 0 := fun e => hs ((length_eq_zero_iff _).mp e)
  rw [ParseKeyPair_pair _ _ hkc hsc, if_neg hk0, if_neg hs0]

theorem ParseKeyPair_roundtrip_witness :
    ParseKeyPair ("abc" ++ ":" ++ "s3cr3t") = ("abc", "s3cr3t", none) :=
  ParseKeyPair_roundtrip "abc" "s3cr3t" (by decide) (by decide) (by decide) (by decide)

/-- C2, as stated: every input with zero colons or more than one colon fails with the
invalid-format error. The empty string refutes it: it has zero colons and fails with
the error of the emptiness guard instead. -/
theorem ParseKeyPair_invalid_format_counterexample :
    ¬ (∀ s : String, (s.data.count ':' = 0 ∨ 1 < s.data.count ':') →
        ParseKeyPair s = ("", "", some "invalid key pair format")) := by
  intro h
  have h0 := h "" (Or.inl (by decide))
  revert h0
  decide

/-- C2, amended: every input with zero colons or more than one colon fails and
returns empty strings for key id and secret; the error is the invalid-format error
when the input is non-empty, and the error of the emptiness guard
("missing access key keyPair") when the input is the empty string. -/
theorem ParseKeyPair_invalid_format (s : String)
    (h : s.data.count ':' = 0 ∨ 1 < s.data.count ':') :
    ParseKeyPair s = ("", "", some (if s = "" then "missing access key keyPair"
      else "invalid key pair format")) := by
  by_cases he : s = ""
  · subst he
    decide
  · have hlen : s.length ≠ 0 := fun e => he ((length_eq_zero_iff _).mp e)
    have hsp : (stringsSplit s ':').length ≠ 2 := by
      rw [stringsSplit_length]
      omega
    simp [ParseKeyPair, hlen, hsp, he]

theorem ParseKeyPair_invalid_format_witness :
    ParseKeyPair "a:b:c" = ("", "", some "invalid key pair format") :=
  ParseKeyPair_invalid_format "a:b:c" (Or.inr (by decide))

/-- C3: on an input with exactly one colon, written `a:b`, ParseKeyPair fails with
the missing-key-id error when `a` is empty, and with the missing-secret error when
`a` is non-empty and `b` is empty; the two errors differ from each other and from
the invalid-format error. -/
theorem ParseKeyPair_missing_half (s a b : String) (hs : s = a ++ ":" ++ b)
    (h : s.data.count ':' = 1) :
    (a = "" → ParseKeyPair s = ("", "", some "missing access key id")) ∧
    (a ≠ "" → b = "" → ParseKeyPair s = ("", "", some "missing secret access key")) ∧
    ("missing access key id" : String) ≠ "missing secret access key" ∧
    ("missing access key id" : String) ≠ "invalid key pair format" ∧
    ("missing secret access key" : String) ≠ "invalid key pair format" := by
  subst hs
  obtain ⟨ha, hb⟩ := not_mem_of_count_pair a b h
  rw [ParseKeyPair_pair _ _ ha hb]
  refine ⟨?_, ?_, by decide, by decide, by decide⟩
  · intro ha0
    rw [if_pos ((length_eq_zero_iff _).mpr ha0)]
  · intro ha0 hb0
    have hk0 : a.length ≠ 0 := fun e => ha0 ((length_eq_zero_iff _).mp e)
    rw [if_neg hk0, if_pos ((length_eq_zero_iff _).mpr hb0)]

theorem ParseKeyPair_missing_half_witness :
    ParseKeyPair ":s3cr3t" = ("", "", some "missing access key id") ∧
    ParseKeyPair "abc:" = ("", "", some "missing secret access key") :=
  ⟨(ParseKeyPair_missing_half ":s3cr3t" "" "s3cr3t" (by decide) (by decide)).1 rfl,
   (ParseKeyPair_missing_half "abc:" "abc" "" (by decide) (by decide)).2.1
     (by decide) rfl⟩

/-- C10: the private parseKeyPair of the command-line client and ParseKeyPair of the
library return the same key id, the same secret and the same error on every input. -/
theorem parseKeyPair_eq_ParseKeyPair (s : String) : parseKeyPair s = ParseKeyPair s := by
  unfold parseKeyPair ParseKeyPair
  rfl

/-! Claims about `NewAuthenticator`. -/

/-- C4: NewAuthenticator fails with the no-key-pairs error and returns no
authenticator exactly when the list of key pairs is empty; its error is the
no-key-pairs error for no other list. -/
theorem NewAuthenticator_no_key_pairs (keyPairs : List KeyPair) :
    (NewAuthenticator keyPairs = (none, some "keyPairs are required") ↔ keyPairs = []) ∧
    ((NewAuthenticator keyPairs).2 = some "keyPairs are required" ↔ keyPairs = []) := by
  have key : (NewAuthenticator keyPairs).2 = some "keyPairs are required" → keyPairs = [] := by
    intro h
    by_contra hne
    cases hr : NewAuthenticator.rangeKeyPairs keyPairs [] with
    | error err =>
      rw [NewAuthenticator_of_error keyPairs err hne hr] at h
      obtain ⟨kp, _, hkp⟩ := rangeKeyPairs_error_mem keyPairs [] err hr
      have hinj : err = "keyPairs are required" := Option.some.inj h
      rw [hinj] at hkp
      exact ParseKeyPair_err_ne_required kp hkp
    | ok out =>
      rw [NewAuthenticator_of_ok keyPairs out hne hr] at h
      cases h
  constructor
  · constructor
    · intro h
      exact key (by rw [h])
    · intro h
      rw [h, NewAuthenticator_nil]
  · constructor
    · exact key
    · intro h
      rw [h, NewAuthenticator_nil]

/-- C5: on a non-empty list, NewAuthenticator succeeds exactly when ParseKeyPair
accepts every entry; when an entry is rejected and every entry before it is
accepted, NewAuthenticator returns no authenticator and exactly the error of that
entry, whatever the entries after it are. -/
theorem NewAuthenticator_propagates (keyPairs : List KeyPair) (hne : keyPairs ≠ []) :
    ((∃ a, NewAuthenticator keyPairs = (some a, none)) ↔
      ∀ kp ∈ keyPairs, (ParseKeyPair kp).2.2 = none) ∧
    ((NewAuthenticator keyPairs).2 = none ↔
      ∀ kp ∈ keyPairs, (ParseKeyPair kp).2.2 = none) ∧
    (∀ pre kp post err, keyPairs = pre ++ kp :: post →
      (∀ p ∈ pre, (ParseKeyPair p).2.2 = none) →
      (ParseKeyPair kp).2.2 = some err →
      NewAuthenticator keyPairs = (none, some err)) := by
  have hall_imp : (∀ kp ∈ keyPairs, (ParseKeyPair kp).2.2 = none) →
      ∃ a, NewAuthenticator keyPairs = (some a, none) := by
    intro hall
    obtain ⟨out, hout⟩ := rangeKeyPairs_ok_of_all keyPairs [] hall
    exact ⟨_, NewAuthenticator_of_ok keyPairs out hne hout⟩
  have hnil_imp : (NewAuthenticator keyPairs).2 = none →
      ∀ kp ∈ keyPairs, (ParseKeyPair kp).2.2 = none := by
    intro h
    cases hr : NewAuthenticator.rangeKeyPairs keyPairs [] with
    | error err =>
      rw [NewAuthenticator_of_error keyPairs err hne hr] at h
      cases h
    | ok out => exact rangeKeyPairs_all_of_ok keyPairs [] out hr
  refine ⟨⟨?_, hall_imp⟩, ⟨hnil_imp, ?_⟩, ?_⟩
  · rintro ⟨a, ha⟩
    exact hnil_imp (by rw [ha])
  · intro hall
    obtain ⟨a, ha⟩ := hall_imp hall
    rw [ha]
  · intro pre kp post err hsplit hpre hkp
    apply NewAuthenticator_of_error keyPairs err hne
    rw [hsplit]
    exact rangeKeyPairs_first_error pre post kp [] err hpre hkp

theorem NewAuthenticator_propagates_witness :
    (NewAuthenticator ["abc:s3cr3t", "noColon", ":x"]).2 ≠ none ∧
    NewAuthenticator ["abc:s3cr3t", "noColon", ":x"]
      = (none, some "invalid key pair format") := by
  have h := NewAuthenticator_propagates ["abc:s3cr3t", "noColon", ":x"] (by decide)
  refine ⟨?_, ?_⟩
  · intro hnil
    have hall := h.2.1.mp hnil "noColon" (by decide)
    revert hall
    decide
  · exact h.2.2 ["abc:s3cr3t"] "noColon" [":x"] "invalid key pair format" rfl
      (by decide) (by decide)

/-- C8: for every non-empty list of well-formed key pairs NewAuthenticator succeeds
with the required-header list `(request-target)`, `nonce`, `digest` in that order and
the validator sequence nonce validator, digest validator; any other successful
construction yields the same authenticator up to its secret table. -/
theorem NewAuthenticator_config (keyPairs : List KeyPair) (hne : keyPairs ≠ [])
    (hall : ∀ kp ∈ keyPairs, (ParseKeyPair kp).2.2 = none) :
    ∃ a, NewAuthenticator keyPairs = (some a, none) ∧
      a.headers = ["(request-target)", "nonce", "digest"] ∧
      a.validators = [NewNonceValidator, NewDigestValidator] ∧
      ∀ keyPairs2 a2, NewAuthenticator keyPairs2 = (some a2, none) →
        a2 = { a with secrets := a2.secrets } := by
  obtain ⟨out, hout⟩ := rangeKeyPairs_ok_of_all keyPairs [] hall
  refine ⟨_, NewAuthenticator_of_ok keyPairs out hne hout, rfl, rfl, ?_⟩
  intro keyPairs2 a2 h2
  obtain ⟨_, _, hv, hh⟩ := NewAuthenticator_ok_inv keyPairs2 a2 h2
  cases a2
  simp only at hv hh
  simp [hv, hh]

theorem NewAuthenticator_config_witness :
    ∃ a, NewAuthenticator ["abc:s3cr3t"] = (some a, none) ∧
      a.headers = ["(request-target)", "nonce", "digest"] ∧
      a.validators = [NewNonceValidator, NewDigestValidator] ∧
      ∀ keyPairs2 a2, NewAuthenticator keyPairs2 = (some a2, none) →
        a2 = { a with secrets := a2.secrets } :=
  NewAuthenticator_config ["abc:s3cr3t"] (by decide) (by decide)

/-- C9: after a successful NewAuthenticator call, a key id is present in the secret
table exactly when some key pair of the list parses to it; the secret registered
for it is the secret half of the last key pair in list order with that key id; and
every registered secret uses HMAC-SHA512. -/
theorem NewAuthenticator_secrets (keyPairs : List KeyPair) (a : Authenticator)
    (h : NewAuthenticator keyPairs = (some a, none)) (k : KeyID) :
    (a.secrets.get k ≠ none ↔ ∃ kp ∈ keyPairs, (ParseKeyPair kp).1 = k) ∧
    (∀ s, a.secrets.get k = some s →
      s.Algorithm = Crypto.HmacSha512 ∧
      ∃ pre kp post, keyPairs = pre ++ kp :: post ∧
        ParseKeyPair kp = (k, s.Key, none) ∧
        ∀ p ∈ post, (ParseKeyPair p).1 ≠ k) := by
  obtain ⟨_, hr, _, _⟩ := NewAuthenticator_ok_inv keyPairs a h
  have hacc := rangeKeyPairs_all_of_ok keyPairs [] a.secrets hr
  have hempty : Secrets.get [] k = none := rfl
  rcases rangeKeyPairs_get keyPairs [] a.secrets hr k with
    ⟨hget, hno⟩ | ⟨pre, kp, post, hsplit, hk, hpost, hget⟩
  · rw [hempty] at hget
    constructor
    · constructor
      · intro hn
        exact absurd hget hn
      · rintro ⟨kp, hmem, hkp⟩
        exact absurd hkp (hno kp hmem)
    · intro s hs
      rw [hget] at hs
      cases hs
  · have hmem : kp ∈ keyPairs := by
      rw [hsplit]
      exact List.mem_append_right _ (List.mem_cons_self _ _)
    constructor
    · constructor
      · intro _
        exact ⟨kp, hmem, hk⟩
      · intro _
        rw [hget]
        exact Option.some_ne_none _
    · intro s hs
      rw [hget] at hs
      cases hs
      refine ⟨rfl, pre, kp, post, hsplit, ?_, hpost⟩
      have h3 := hacc kp hmem
      rw [← hk, ← h3]

theorem NewAuthenticator_secrets_witness :
    NewAuthenticator ["a:1", "b:2", "a:3", "b:2"] =
      (some ⟨[("b", ⟨"2", Crypto.HmacSha512⟩), ("a", ⟨"3", Crypto.HmacSha512⟩)],
        [Validator.Nonce, Validator.Digest], ["(request-target)", "nonce", "digest"]⟩,
       none) ∧
    (⟨"3", Crypto.HmacSha512⟩ : Secret).Algorithm = Crypto.HmacSha512 ∧
    ∃ pre kp post, ["a:1", "b:2", "a:3", "b:2"] = pre ++ kp :: post ∧
      ParseKeyPair kp = ("a", (⟨"3", Crypto.HmacSha512⟩ : Secret).Key, none) ∧
      ∀ p ∈ post, (ParseKeyPair p).1 ≠ "a" :=
  ⟨by decide,
   (NewAuthenticator_secrets ["a:1", "b:2", "a:3", "b:2"]
    ⟨[("b", ⟨"2", Crypto.HmacSha512⟩), ("a", ⟨"3", Crypto.HmacSha512⟩)],
      [Validator.Nonce, Validator.Digest], ["(request-target)", "nonce", "digest"]⟩
    (by decide) "a").2 ⟨"3", Crypto.HmacSha512⟩ (by decide)⟩

/-- C6, as stated: any permutation of a list of well-formed key pairs yields the same
secret table. Two key pairs with the same key id and different secrets refute it:
the later entry overwrites the earlier one. -/
theorem NewAuthenticator_perm_counterexample :
    ¬ (∀ l l2 : List KeyPair, l.Perm l2 →
        (∀ kp ∈ l, (ParseKeyPair kp).2.2 = none) →
        ∀ k, (NewAuthenticator l).1.bind (fun a => a.secrets.get k) =
          (NewAuthenticator l2).1.bind (fun a => a.secrets.get k)) := by
  intro h
  have h0 := h ["a:1", "a:2"] ["a:2", "a:1"] (List.Perm.swap _ _ _) (by decide) "a"
  revert h0
  decide

/-- C6, amended: for every non-empty list of well-formed key pairs in which entries
with the same key id carry the same secret (in particular when the key ids are
pairwise distinct), NewAuthenticator succeeds on the list and on every permutation
of it, with the same secret for every key id and the same configuration. -/
theorem NewAuthenticator_perm (l l2 : List KeyPair) (hperm : l.Perm l2) (hne : l ≠ [])
    (hall : ∀ kp ∈ l, (ParseKeyPair kp).2.2 = none)
    (hsame : ∀ p ∈ l, ∀ q ∈ l, (ParseKeyPair p).1 = (ParseKeyPair q).1 →
      (ParseKeyPair p).2.1 = (ParseKeyPair q).2.1) :
    ∃ a a2, NewAuthenticator l = (some a, none) ∧ NewAuthenticator l2 = (some a2, none) ∧
      (∀ k, a.secrets.get k = a2.secrets.get k) ∧
      a.validators = a2.validators ∧ a.headers = a2.headers := by
  have hne2 : l2 ≠ [] := fun e => hne (List.Perm.eq_nil (e ▸ hperm))
  have hall2 : ∀ kp ∈ l2, (ParseKeyPair kp).2.2 = none :=
    fun kp hkp => hall kp (hperm.mem_iff.mpr hkp)
  obtain ⟨out, hout⟩ := rangeKeyPairs_ok_of_all l [] hall
  obtain ⟨out2, hout2⟩ := rangeKeyPairs_ok_of_all l2 [] hall2
  refine ⟨_, _, NewAuthenticator_of_ok l out hne hout,
    NewAuthenticator_of_ok l2 out2 hne2 hout2, ?_, rfl, rfl⟩
  intro k
  show out.get k = out2.get k
  rcases rangeKeyPairs_get l [] out hout k with
    ⟨hget, hno⟩ | ⟨pre, kp, post, hsplit, hk, _, hget⟩ <;>
  rcases rangeKeyPairs_get l2 [] out2 hout2 k with
    ⟨hget2, hno2⟩ | ⟨pre2, kp2, post2, hsplit2, hk2, _, hget2⟩
  · rw [hget, hget2]
  · have hmem2 : kp2 ∈ l2 := by
      rw [hsplit2]
      exact List.mem_append_right _ (List.mem_cons_self _ _)
    exact absurd hk2 (hno kp2 (hperm.mem_iff.mpr hmem2))
  · have hmem : kp ∈ l := by
      rw [hsplit]
      exact List.mem_append_right _ (List.mem_cons_self _ _)
    exact absurd hk (hno2 kp (hperm.mem_iff.mp hmem))
  · have hmem : kp ∈ l := by
      rw [hsplit]
      exact List.mem_append_right _ (List.mem_cons_self _ _)
    have hmem2 : kp2 ∈ l2 := by
      rw [hsplit2]
      exact List.mem_append_right _ (List.mem_cons_self _ _)
    have hsec := hsame kp hmem kp2 (hperm.mem_iff.mpr hmem2) (hk.trans hk2.symm)
    rw [hget, hget2, hsec]

theorem NewAuthenticator_perm_witness :
    ∃ a a2, NewAuthenticator ["a:1", "b:2", "a:1"] = (some a, none) ∧
      NewAuthenticator ["b:2", "a:1", "a:1"] = (some a2, none) ∧
      (∀ k, a.secrets.get k = a2.secrets.get k) ∧
      a.validators = a2.validators ∧ a.headers = a2.headers :=
  NewAuthenticator_perm ["a:1", "b:2", "a:1"] ["b:2", "a:1", "a:1"]
    (List.Perm.swap _ _ _) (by decide) (by decide) (by decide)

/-! Claims about `run`. -/

theorem run_onResponse_above_400 (rsp : Response) (h : 400 < rsp.StatusCode) :
    run.onResponse rsp = { stdout := "", err := some ("unexpected status: " ++ rsp.Status) } := by
  unfold run.onResponse
  rw [if_pos h]

theorem run_onResponse_at_most_400 (rsp : Response) (output : String)
    (h : rsp.StatusCode ≤ 400) (hread : rsp.readAll = .ok output) :
    run.onResponse rsp = { stdout := output, err := rsp.close } := by
  unfold run.onResponse
  rw [if_neg (by omega), hread]

/-- C7, at status 400: the server answers `400 Bad Request`; run prints the body of
the response and returns a nil error, where the claim requires a non-nil error and
no output for every status of 400 or more. -/
theorem run_status_400 :
    run (respondingWith { StatusCode := 400, Status := "400 Bad Request",
                          readAll := .ok "bad request", close := none })
        { firstArg := "http://localhost/resource", request := "GET",
          user := "abc:s3cr3t", data := "" }
      = { stdout := "bad request", err := none } := by
  decide

end HttpSign
